import Mathlib

/-!
# Aether — verification of the coordination-plane specification

Shallow embedding of the Aether repository's TypeScript SDK and dashboard
code (and, where the server core is absent from the tree, a model built
from the specification).  Each claim of the specification is stated and
settled as a theorem below the definitions.
-/

namespace Aether

/-- Opaque JSON-like payload values: step inputs/outputs and event payloads
are dynamic values in the TypeScript source. -/
inductive Value where
  | null : Value
  | bool (b : Bool) : Value
  | num (n : Int) : Value
  | str (s : String) : Value
  | arr (xs : List Value) : Value
  | obj (fields : List (String × Value)) : Value

/-! ## Dashboard monitor events — src/dashboard/src/lib/types.ts -/

namespace Dashboard

/-- `StepEventType` from src/dashboard/src/lib/types.ts (lines 29-34): the
union of event-type strings a monitor-channel event may carry. -/
inductive StepEventType where
  | stepStarted
  | stepCompleted
  | stepFailed
  | workflowCompleted
  | workflowFailed
deriving DecidableEq, Repr

/-- The wire string of each event type, exactly the string literals of the
TypeScript union. -/
def StepEventType.wireName : StepEventType → String
  | .stepStarted => "step:started"
  | .stepCompleted => "step:completed"
  | .stepFailed => "step:failed"
  | .workflowCompleted => "workflow:completed"
  | .workflowFailed => "workflow:failed"

/-- The event-specific payload union of src/dashboard/src/lib/types.ts
(`StepStartedPayload | StepCompletedPayload | StepFailedPayload |
WorkflowCompletedPayload | WorkflowFailedPayload`). -/
inductive EventPayload where
  | stepStarted (step_name : String) (input : Value)
  | stepCompleted (step_name : String) (output : Value)
  | stepFailed (step_name : String) (error : String) (attempt : Nat)
  | workflowCompleted (result : Value)
  | workflowFailed (error : String)

/-- Wire encoding of an event payload (snake_case field names, as declared
in the payload interfaces of types.ts). -/
def EventPayload.toValue : EventPayload → Value
  | .stepStarted n i => .obj [("step_name", .str n), ("input", i)]
  | .stepCompleted n o => .obj [("step_name", .str n), ("output", o)]
  | .stepFailed n e a =>
      .obj [("step_name", .str n), ("error", .str e), ("attempt", .num a)]
  | .workflowCompleted r => .obj [("result", r)]
  | .workflowFailed e => .obj [("error", .str e)]

/-- `WorkflowEvent` from src/dashboard/src/lib/types.ts (lines 37-43): a
lifecycle event pushed on the monitor subscription channel. -/
structure WorkflowEvent where
  event_type : StepEventType
  workflow_id : String
  workflow_type : String
  timestamp : Int
  payload : EventPayload

/-- Wire encoding of a monitor-channel event: an object holding exactly the
five snake_case fields of the `WorkflowEvent` interface. -/
def WorkflowEvent.toWire (e : WorkflowEvent) : List (String × Value) :=
  [("event_type", .str e.event_type.wireName),
   ("workflow_id", .str e.workflow_id),
   ("workflow_type", .str e.workflow_type),
   ("timestamp", .num e.timestamp),
   ("payload", e.payload.toValue)]

/-- The event-type strings the specification's LifecycleEvent record lists
(seven members). -/
def specEventTypeNames : List String :=
  ["step:started", "step:completed", "step:failed", "workflow:started",
   "workflow:completed", "workflow:failed", "workflow:cancelled"]

/-- The event-type strings the dashboard wire type actually declares
(five members). -/
def codeEventTypeNames : List String :=
  ["step:started", "step:completed", "step:failed",
   "workflow:completed", "workflow:failed"]

end Dashboard

/-! ## gRPC client — src/sdks/typescript/src/client.ts (legacy gRPC Client) -/

namespace ClientGrpc

/-- The gRPC status code `FAILED_PRECONDITION` (grpc.status.FAILED_PRECONDITION). -/
def FAILED_PRECONDITION : Nat := 9

/-- The gRPC status code `CANCELLED`. -/
def CANCELLED : Nat := 1

/-- The default `timeoutSeconds` of `Client.awaitResult`. -/
def defaultTimeoutSeconds : Nat := 60

/-- A `getWorkflowStatus` response as consumed by `pollForResult`: the code
reads `status.state`, `status.result` and `status.error`.  The state can
arrive as a string name or a numeric enum value, which is why the code
compares against both `'COMPLETED'` and `2`. -/
structure StatusResp where
  state : Value
  result : Value
  error : String

/-- `status.state === 'COMPLETED' || status.state === 2`. -/
def isCompletedState (v : Value) : Bool :=
  match v with
  | .str s => s = "COMPLETED"
  | .num n => n = 2
  | _ => false

/-- `status.state === 'FAILED' || status.state === 3`. -/
def isFailedState (v : Value) : Bool :=
  match v with
  | .str s => s = "FAILED"
  | .num n => n = 3
  | _ => false

/-- The settled outcome of the `awaitResult` promise: a resolved
`{result?, error?, state?}` record, a rejected gRPC error, or the
`throw new Error('Workflow timeout')` of `pollForResult`. -/
inductive AwaitOutcome where
  | resolved (result : Option Value) (error : Option String) (state : Option Value)
  | rejected (code : Nat) (msg : String)
  | timeoutThrown

/-- The polling loop of `Client.pollForResult`: iteration `n` runs at
elapsed time `n * 500` ms (each iteration ends with a 500 ms sleep; the
status call itself is modelled as instantaneous), and the loop keeps going
while the elapsed time is below `timeoutMs`.  `fuel` bounds the recursion;
`pollForResult` supplies enough fuel to cover the whole window. -/
def pollLoop (statusAt : Nat → StatusResp) (timeoutMs : Nat) :
    Nat → Nat → AwaitOutcome
  | 0, _ => .timeoutThrown
  | fuel + 1, n =>
    if n * 500 < timeoutMs then
      let status := statusAt n
      if isCompletedState status.state then
        .resolved (some status.result) none (some (.str "COMPLETED"))
      else if isFailedState status.state then
        .resolved none (some status.error) (some (.str "FAILED"))
      else
        pollLoop statusAt timeoutMs fuel (n + 1)
    else
      .timeoutThrown

/-- `Client.pollForResult(workflowId, timeoutSeconds)`: polls
`getWorkflowStatus` every 500 ms until a terminal state arrives or
`timeoutSeconds * 1000` ms have elapsed, then throws the timeout error.
`statusAt n` is the status response observed by the n-th poll. -/
def pollForResult (statusAt : Nat → StatusResp) (timeoutSeconds : Nat) :
    AwaitOutcome :=
  pollLoop statusAt (timeoutSeconds * 1000) (2 * timeoutSeconds + 1) 0

/-- The server's first response to the `awaitResult` gRPC call: either a
response record `{result, error, state}` or a gRPC error with a status
code. -/
inductive GrpcFirst where
  | ok (result : Value) (error : String) (state : Value)
  | err (code : Nat) (msg : String)

/-- `Client.awaitResult(workflowId, timeoutSeconds = 60)`: on a gRPC error
with code `FAILED_PRECONDITION` the workflow is still running, so the client
falls back to `pollForResult`; any other error is rejected; a response is
resolved as `{result, error, state}`. -/
def awaitResult (first : GrpcFirst) (statusAt : Nat → StatusResp)
    (timeoutSeconds : Nat) : AwaitOutcome :=
  match first with
  | .err code _msg =>
      if code = FAILED_PRECONDITION then pollForResult statusAt timeoutSeconds
      else .rejected code _msg
  | .ok result error state => .resolved (some result) (some error) (some state)

/-- A status response is terminal when the loop would stop on it. -/
def isTerminalState (v : Value) : Bool := isCompletedState v || isFailedState v

/-- A concrete status trace: still running for the first two polls, then
completed with result "done".  Used to instantiate the awaitResult
theorems on a concrete input. -/
def sampleStatusAt : Nat → StatusResp := fun n =>
  if n < 2 then { state := .str "RUNNING", result := .null, error := "" }
  else { state := .str "COMPLETED", result := .str "done", error := "" }

end ClientGrpc

/-- First-match association lookup, modelling `Map.get` on registries keyed
by name (keys are unique by construction, so first match is the match). -/
def alookup {α : Type} : List (String × α) → String → Option α
  | [], _ => none
  | (k, v) :: rest, key => if k = key then some v else alookup rest key

/-! ## Worker task handling — trpc and NestJS SDKs -/

namespace Worker

/-- A user step handler: opaque code that receives the task input and either
returns an output or throws an error message. -/
def Handler : Type := Value → Except String Value

/-- A task delivered to a worker (fields read by the handleTask functions). -/
structure AetherTask where
  taskId : String
  workflowId : String
  workflowType : String
  stepName : String
  input : Value

/-- One outward call a worker performs while handling a task: the
report-step progress calls and the complete-step acknowledgement
(`complete` carries the result payload and the optional error string). -/
inductive WorkerAction where
  | reportStarted (workflowId stepName : String) (input : Value)
  | reportCompleted (workflowId stepName : String) (output : Value)
  | reportFailed (workflowId stepName : String) (error : String)
  | complete (taskId : String) (result : Value) (error : Option String)

/-- The call sequence all three workers perform once a handler is found:
report started, run the handler, then report completed and complete with
the output — or, when the handler throws, report failed and complete with
the error message and an empty object result. -/
def dispatchTrace (task : AetherTask) (stepName : String) (h : Handler) :
    List WorkerAction :=
  match h task.input with
  | .ok r =>
      [.reportStarted task.workflowId stepName task.input,
       .reportCompleted task.workflowId stepName r,
       .complete task.taskId r none]
  | .error e =>
      [.reportStarted task.workflowId stepName task.input,
       .reportFailed task.workflowId stepName e,
       .complete task.taskId (.obj []) (some e)]

/-- handleTask of src/sdks/trpc/src/create-aether-trpc.ts (lines 186-219):
looks the step up by name; a "start" task with no direct handler falls back
to the handler registered under the task's workflow-type (when the
workflow-type string is non-empty); a task still unmatched is completed
with a "No handler" error. -/
def trpcNewHandleTask (steps : List (String × Handler)) (task : AetherTask) :
    List WorkerAction :=
  if task.stepName == "start" && (alookup steps task.stepName).isNone &&
      task.workflowType != "" then
    match alookup steps task.workflowType with
    | none =>
        [.complete task.taskId (.obj [])
          (some ("No handler: " ++ task.workflowType))]
    | some h => dispatchTrace task task.workflowType h
  else
    match alookup steps task.stepName with
    | none =>
        [.complete task.taskId (.obj [])
          (some ("No handler: " ++ task.stepName))]
    | some h => dispatchTrace task task.stepName h

/-- AetherTrpc.handleTask of src/sdks/trpc/src/aether-trpc.ts (lines
236-271): an unmatched "start" task is completed successfully with
`{started: true}`; any other unmatched task is completed with a
"No handler for step" error; a matched task is dispatched. -/
def trpcOldHandleTask (steps : List (String × Handler)) (task : AetherTask) :
    List WorkerAction :=
  match alookup steps task.stepName with
  | none =>
      if task.stepName == "start" then
        [.complete task.taskId (.obj [("started", .bool true)]) none]
      else
        [.complete task.taskId (.obj [])
          (some ("No handler for step: " ++ task.stepName))]
  | some h => dispatchTrace task task.stepName h

/-- AetherWorkerService.handleTask of
src/sdks/nestjs/src/providers/aether-worker.service.ts (lines 421-471):
same dispatch discipline as the first-generation trpc worker. -/
def nestHandleTask (handlers : List (String × Handler)) (task : AetherTask) :
    List WorkerAction :=
  match alookup handlers task.stepName with
  | none =>
      if task.stepName == "start" then
        [.complete task.taskId (.obj [("started", .bool true)]) none]
      else
        [.complete task.taskId (.obj [])
          (some ("No handler for step: " ++ task.stepName))]
  | some h => dispatchTrace task task.stepName h

/-- Whether an action is a completion acknowledging the given task-id. -/
def isCompleteFor (taskId : String) : WorkerAction → Bool
  | .complete t _ _ => t == taskId
  | _ => false

/-- Number of completions referencing a task-id within a call trace. -/
def completionCount (taskId : String) (trace : List WorkerAction) : Nat :=
  (trace.filter (isCompleteFor taskId)).length

/-- ctx.step of the in-worker workflow context (src/unnamed/part_013,
Workflow.createContext, lines 45-79): report started (with an empty-object
input), run the user function; on return report completed and yield the
result; on throw report failed and propagate the error. -/
def ctxStep (workflowId name : String) (fn : Except String Value) :
    List WorkerAction × Except String Value :=
  match fn with
  | .ok r =>
      ([.reportStarted workflowId name (.obj []),
        .reportCompleted workflowId name r], .ok r)
  | .error e =>
      ([.reportStarted workflowId name (.obj []),
        .reportFailed workflowId name e], .error e)

/-- A workflow body that invokes ctx.step on a declared list of steps in
order (as slowWorkflow in src/examples/quickstart/slow-test.ts does):
each step's trace is appended; the first throwing step aborts the body and
its error propagates, so no later step runs. -/
def runBody (workflowId : String) :
    List (String × Except String Value) →
      List WorkerAction × Except String Unit
  | [] => ([], .ok ())
  | (name, fn) :: rest =>
    let r := ctxStep workflowId name fn
    match r.2 with
    | .ok _ =>
        let r' := runBody workflowId rest
        (r.1 ++ r'.1, r'.2)
    | .error e => (r.1, .error e)

end Worker

/-! ## Symbol-tagged step registration — src/sdks/trpc -/

namespace Trpc

/-- Whether a step procedure was declared through mutationStep or queryStep. -/
inductive ProcType where
  | mutation
  | query
deriving DecidableEq, Repr

/-- StepMeta of src/sdks/trpc/src/types.ts: the record attached to a created
procedure under the AETHER_STEP_META symbol.  The handler type is kept
abstract: user handlers are opaque code and the registration machinery only
stores and forwards them. -/
structure StepMeta (H : Type) where
  handler : H
  type : ProcType
  explicitName : Option String
deriving DecidableEq

/-- A created tRPC procedure: the transport handler installed by the
underlying `.mutation`/`.query` call, plus the optional symbol-tagged step
metadata. -/
structure Procedure (H : Type) where
  procType : ProcType
  handler : H
  aetherStepMeta : Option (StepMeta H)
deriving DecidableEq

/-- createStepMethod of src/sdks/trpc/src/procedure-builder-proxy.ts (lines
29-58): resolves the `(handler)` / `(name, handler)` overload to an optional
explicit name, calls the original mutation/query method with the handler,
and attaches StepMeta carrying the same handler. -/
def createStepMethod {H : Type} (ty : ProcType) (explicitName : Option String)
    (handler : H) : Procedure H :=
  { procType := ty, handler := handler,
    aetherStepMeta := some { handler := handler, type := ty,
                             explicitName := explicitName } }

/-- RegisteredStepWithPath of src/sdks/trpc/src/types.ts: a registry entry
holding the derived step name, the handler and the router path it came
from. -/
structure RegisteredStepWithPath (H : Type) where
  name : String
  handler : H
  path : String
deriving DecidableEq

/-- The step registry (`steps: Map<string, RegisteredStepWithPath>`),
modelled as an insertion-ordered association list with unique keys. -/
abbrev Registry (H : Type) : Type := List (String × RegisteredStepWithPath H)

/-- A router record as traversed by bindRouter: a finite sequence of named
entries, each either a procedure or a nested router.  (The TypeScript
`_def.procedures` record is encoded as a cons-list of entries.) -/
inductive RouterRec (H : Type) where
  | nil : RouterRec H
  | procEntry (key : String) (p : Procedure H) (rest : RouterRec H) : RouterRec H
  | routerEntry (key : String) (child : RouterRec H) (rest : RouterRec H) :
      RouterRec H

/-- The dot-joined path: `prefix ? `${prefix}.${key}` : key`. -/
def joinPath (pre key : String) : String :=
  if pre = "" then key else pre ++ "." ++ key

/-- The duplicate-step-name error message thrown by bindRouter, exactly as
the source concatenates it. -/
def dupMsg (stepName existingPath newPath : String) : String :=
  "[AetherTrpc] Duplicate step name \"" ++ stepName ++ "\": " ++
  "both \"" ++ existingPath ++ "\" and \"" ++ newPath ++
  "\" resolve to this name. Please use explicit names to resolve the conflict."

/-- bindRouter of src/sdks/trpc/src/create-aether-trpc.ts (lines 69-109):
walks the router record; nested routers recurse with the dot-extended
path; a procedure carrying step metadata is registered under its derived
name (the explicit name when given, the dot-joined path otherwise); a
derived name already present in the registry throws the duplicate error,
leaving the registry exactly as it stood at the throw (the error value
carries that registry). -/
def bindRouter {H : Type} (steps : Registry H) (pre : String) :
    RouterRec H → Except (String × Registry H) (Registry H)
  | .nil => .ok steps
  | .routerEntry key child rest =>
    match bindRouter steps (joinPath pre key) child with
    | .error e => .error e
    | .ok steps' => bindRouter steps' pre rest
  | .procEntry key p rest =>
    match p.aetherStepMeta with
    | none => bindRouter steps pre rest
    | some meta =>
      match alookup steps (meta.explicitName.getD (joinPath pre key)) with
      | some existing =>
          .error (dupMsg (meta.explicitName.getD (joinPath pre key))
            existing.path (joinPath pre key), steps)
      | none =>
        bindRouter
          (steps ++ [(meta.explicitName.getD (joinPath pre key),
            { name := meta.explicitName.getD (joinPath pre key),
              handler := meta.handler, path := joinPath pre key })])
          pre rest

end Trpc

/-! ## Task polling — Client.pollTasksOnce (gRPC and legacy HTTP) -/

namespace Poll

/-- An event observed on the `pollTasks` server stream: a streamed task, an
error with a gRPC status code, or the end of the stream. -/
inductive StreamEvent (α : Type) where
  | taskData (t : α)
  | errEvent (code : Nat) (msg : String)
  | endEvent

/-- How the `pollTasksOnce` promise settles: resolved with the collected
batch, rejected with a gRPC error, or left pending when the stream never
terminates. -/
inductive PollResult (β : Type) where
  | resolvedTasks (tasks : List β)
  | rejectedCall (code : Nat) (msg : String)
  | pendingCall (acc : List β)
deriving DecidableEq, Repr

/-- The request payload `pollTasks({workerId, maxTasks})` sends. -/
structure PollRequest where
  workerId : String
  maxTasks : Nat
deriving DecidableEq, Repr

/-- The event folding of Client.pollTasksOnce (gRPC, client.ts lines
549-578): each `data` task is decoded (`{...task, input}` with the input
bytes parsed — modelled by `decode`) and pushed; `end` resolves the batch;
an error with code CANCELLED (1) also resolves the batch; any other error
rejects.  Events after the first terminator are ignored because the promise
has already settled. -/
def pollStream {α β : Type} (decode : α → β) :
    List (StreamEvent α) → List β → PollResult β
  | [], acc => .pendingCall acc
  | .taskData t :: rest, acc => pollStream decode rest (acc ++ [decode t])
  | .errEvent c m :: _, acc =>
      if c = 1 then .resolvedTasks acc else .rejectedCall c m
  | .endEvent :: _, acc => .resolvedTasks acc

/-- Client.pollTasksOnce (gRPC): issues the claim request for up to
`maxTasks` tasks and folds the resulting stream. -/
def grpcPollTasksOnce {α β : Type} (decode : α → β) (workerId : String)
    (maxTasks : Nat) (stream : List (StreamEvent α)) :
    PollRequest × PollResult β :=
  ({ workerId := workerId, maxTasks := maxTasks },
   pollStream decode stream [])

/-- Legacy HTTP Client.pollTasksOnce (client.ts lines 239-244): ignores the
worker id, the batch size and whatever tasks the server has available, and
returns the empty array ("simplified version that returns empty array" per
its own comment). -/
def httpPollTasksOnce {α : Type} (_workerId : String) (_maxTasks : Nat)
    (_available : List α) : List α := []

end Poll

/-! ## Worker session material — AetherWorker / AetherHttpClient -/

namespace Session

/-- The session fields of AetherWorker (client.ts) and AetherHttpClient
(NestJS): both `workerId` and `sessionToken` are null until a successful
register stores the response. -/
structure WorkerState where
  workerId : Option String
  sessionToken : Option String

/-- The register response `{workerId, sessionToken}`. -/
structure RegisterResponse where
  workerId : String
  sessionToken : String

/-- A successful register stores the returned worker-id and session-token
(AetherWorker.register lines 98-109 / AetherHttpClient.register lines
105-136). -/
def applyRegister (_st : WorkerState) (resp : RegisterResponse) : WorkerState :=
  { workerId := some resp.workerId, sessionToken := some resp.sessionToken }

/-- The websocket task-stream endpoint:
`${wsUrl}/workers/${workerId}/tasks?token=${sessionToken}`. -/
def taskStreamUrl (wsBase workerId sessionToken : String) : String :=
  wsBase ++ "/workers/" ++ workerId ++ "/tasks?token=" ++ sessionToken

/-- AetherWorker.connect (client.ts lines 111-118): throws unless both the
worker-id and the session-token are present, then opens the task stream at
the token-bearing URL. -/
def connectWorker (wsBase : String) (st : WorkerState) : Except String String :=
  match st.workerId, st.sessionToken with
  | some wid, some tok => .ok (taskStreamUrl wsBase wid tok)
  | _, _ => .error "Must register before connecting"

/-- AetherHttpClient.connect + establishWebSocket (NestJS
aether-worker.service.ts lines 138-153): the same registration guard and
the same task-stream URL. -/
def nestConnect (wsBase : String) (st : WorkerState) : Except String String :=
  match st.workerId, st.sessionToken with
  | some wid, some tok => .ok (taskStreamUrl wsBase wid tok)
  | _, _ => .error "Must register before connecting"

/-- An HTTP request issued by the worker client. -/
inductive HttpRequest where
  | heartbeatPost (workerId : String)
deriving DecidableEq, Repr

/-- AetherWorker.heartbeat (client.ts lines 156-162): returns false without
issuing any request when no worker-id is registered; otherwise posts the
heartbeat and returns the response's ok flag (`serverOk`). -/
def heartbeat (st : WorkerState) (serverOk : Bool) : Bool × List HttpRequest :=
  match st.workerId with
  | none => (false, [])
  | some wid => (serverOk, [.heartbeatPost wid])

end Session

/-! ## Coordinator complete-step — modelled from the spec (the server core
is not under src/) -/

namespace Core

/-- Modelled from the spec: the workflow lifecycle states of §3. -/
inductive WfState where
  | pending
  | running
  | completed
  | failed
  | cancelled
deriving DecidableEq, Repr

/-- Modelled from the spec: a dispatched task record held by the
coordinator (§3, Task; the server core is missing from src/).  The task-id
is the claim token workers reference when completing; `completed` records
that a completion for this task-id was already accepted. -/
structure CoreTask where
  taskId : String
  workflowId : String
  stepName : String
  completed : Bool

/-- Modelled from the spec: a workflow instance as the coordinator tracks
it (§3, Workflow) — current step, remaining declared steps, state, and the
terminal result or error. -/
structure CoreWorkflow where
  workflowId : String
  currentStep : Option String
  stepsRemaining : List String
  state : WfState
  result : Option Value
  errorMsg : Option String

/-- Modelled from the spec: the lifecycle events a completion can emit
(§3, LifecycleEvent). -/
inductive CoreEvent where
  | stepCompleted (workflowId stepName : String)
  | stepFailed (workflowId stepName : String) (error : String)
  | workflowCompleted (workflowId : String)
  | workflowFailed (workflowId : String) (error : String)

/-- Modelled from the spec: coordinator state — task records, workflow
records, the emitted event log, and the counter from which fresh task-ids
are generated per dispatch. -/
structure CoreState where
  tasks : List CoreTask
  workflows : List CoreWorkflow
  events : List CoreEvent
  nextTaskSeq : Nat

/-- The result of complete-step: ok, or not-found for an unknown task-id. -/
inductive CompleteOutcome where
  | ok
  | notFound
deriving DecidableEq, Repr

/-- Task lookup by the claim token (first match). -/
def findTask : List CoreTask → String → Option CoreTask
  | [], _ => none
  | t :: rest, taskId =>
    if t.taskId == taskId then some t else findTask rest taskId

/-- Mark the task with the given id as completed, keeping every other task
record unchanged. -/
def markTaskCompleted : List CoreTask → String → List CoreTask
  | [], _ => []
  | t :: rest, taskId =>
    (if t.taskId == taskId then { t with completed := true } else t) ::
      markTaskCompleted rest taskId

/-- Modelled from the spec: `complete-step(task-id, result-bytes |
error-string) → ok` (§4.6) with the transition sequence of §4.5 (the server
core is missing from src/).  An unknown task-id is not-found; a task whose
completion was already accepted returns ok without side effects
("idempotent by task-id: a duplicate completion returns ok without side
effects"); otherwise the task is marked completed and the workflow
advances — on success the next declared step is enqueued as a fresh task,
or the workflow completes when none remain; on an error string the
workflow fails — emitting the corresponding lifecycle events. -/
def completeStep (s : CoreState) (taskId : String) (result : Value)
    (error : Option String) : CoreState × CompleteOutcome :=
  match findTask s.tasks taskId with
  | none => (s, .notFound)
  | some t =>
    if t.completed then
      (s, .ok)
    else
      match error with
      | some e =>
        ({ s with
            tasks := markTaskCompleted s.tasks taskId,
            workflows := s.workflows.map fun w =>
              if w.workflowId == t.workflowId then
                { w with state := .failed, errorMsg := some e,
                         currentStep := none }
              else w,
            events := s.events ++
              [.stepFailed t.workflowId t.stepName e,
               .workflowFailed t.workflowId e] }, .ok)
      | none =>
        match s.workflows.find? (fun w => w.workflowId == t.workflowId) with
        | none => ({ s with tasks := markTaskCompleted s.tasks taskId }, .ok)
        | some w =>
          match w.stepsRemaining with
          | [] =>
            ({ s with
                tasks := markTaskCompleted s.tasks taskId,
                workflows := s.workflows.map fun w' =>
                  if w'.workflowId == t.workflowId then
                    { w' with state := .completed, result := some result,
                              currentStep := none }
                  else w',
                events := s.events ++
                  [.stepCompleted t.workflowId t.stepName,
                   .workflowCompleted t.workflowId] }, .ok)
          | next :: restSteps =>
            ({ s with
                tasks := markTaskCompleted s.tasks taskId ++
                  [{ taskId := "task-" ++ toString s.nextTaskSeq,
                     workflowId := t.workflowId, stepName := next,
                     completed := false }],
                workflows := s.workflows.map fun w' =>
                  if w'.workflowId == t.workflowId then
                    { w' with currentStep := some next,
                              stepsRemaining := restSteps }
                  else w',
                events := s.events ++
                  [.stepCompleted t.workflowId t.stepName],
                nextTaskSeq := s.nextTaskSeq + 1 }, .ok)

/-- A concrete coordinator state: one running single-step workflow with one
claimed, not yet completed task.  Used to instantiate the idempotence
theorem on a concrete input. -/
def sampleCore : CoreState :=
  { tasks := [{ taskId := "t-1", workflowId := "w-1", stepName := "start",
                completed := false }],
    workflows := [{ workflowId := "w-1", currentStep := some "start",
                    stepsRemaining := [], state := .running,
                    result := none, errorMsg := none }],
    events := [],
    nextTaskSeq := 0 }

end Core

end Aether

/-! ## Theorems -/

namespace Aether

namespace ClientGrpc

theorem pollLoop_step (statusAt : Nat → StatusResp) (tms fuel n : Nat)
    (hlt : n * 500 < tms)
    (hnt : isTerminalState (statusAt n).state = false) :
    pollLoop statusAt tms (fuel + 1) n = pollLoop statusAt tms fuel (n + 1) := by
  have h := hnt
  simp only [isTerminalState, Bool.or_eq_false_iff] at h
  simp [pollLoop, hlt, h.1, h.2]

theorem pollLoop_completed (statusAt : Nat → StatusResp) (tms fuel n : Nat)
    (hlt : n * 500 < tms)
    (hc : isCompletedState (statusAt n).state = true) :
    pollLoop statusAt tms (fuel + 1) n =
      .resolved (some (statusAt n).result) none (some (.str "COMPLETED")) := by
  simp [pollLoop, hlt, hc]

theorem pollLoop_failed (statusAt : Nat → StatusResp) (tms fuel n : Nat)
    (hlt : n * 500 < tms)
    (hnc : isCompletedState (statusAt n).state = false)
    (hf : isFailedState (statusAt n).state = true) :
    pollLoop statusAt tms (fuel + 1) n =
      .resolved none (some (statusAt n).error) (some (.str "FAILED")) := by
  simp [pollLoop, hlt, hnc, hf]

theorem pollLoop_timeout (statusAt : Nat → StatusResp) (tms fuel n : Nat)
    (hge : ¬ n * 500 < tms) :
    pollLoop statusAt tms (fuel + 1) n = .timeoutThrown := by
  simp [pollLoop, hge]

theorem pollLoop_reach (statusAt : Nat → StatusResp) (tms : Nat) :
    ∀ (k fuel n : Nat),
      (∀ m, m < k → isTerminalState (statusAt (n + m)).state = false) →
      (∀ m, m < k → (n + m) * 500 < tms) →
      pollLoop statusAt tms (fuel + k) n = pollLoop statusAt tms fuel (n + k)
  | 0, fuel, n, _, _ => rfl
  | k + 1, fuel, n, hnt, hlt => by
    have h0nt := hnt 0 (Nat.succ_pos k)
    have h0lt := hlt 0 (Nat.succ_pos k)
    simp only [Nat.add_zero] at h0nt h0lt
    have hstep : pollLoop statusAt tms (fuel + (k + 1)) n =
        pollLoop statusAt tms (fuel + k) (n + 1) := by
      rw [show fuel + (k + 1) = (fuel + k) + 1 from rfl]
      exact pollLoop_step statusAt tms (fuel + k) n h0lt h0nt
    rw [hstep,
      pollLoop_reach statusAt tms k fuel (n + 1)
        (fun m hm => by
          have h := hnt (m + 1) (by omega)
          rw [show n + 1 + m = n + (m + 1) from by omega]
          exact h)
        (fun m hm => by
          have h := hlt (m + 1) (by omega)
          rw [show n + 1 + m = n + (m + 1) from by omega]
          exact h),
      show n + 1 + k = n + (k + 1) from by omega]

theorem pollForResult_completed (statusAt : Nat → StatusResp)
    (t n : Nat)
    (hfirst : ∀ m, m < n → isTerminalState (statusAt m).state = false)
    (hwin : n * 500 < t * 1000)
    (hc : (statusAt n).state = .str "COMPLETED") :
    pollForResult statusAt t =
      .resolved (some (statusAt n).result) none (some (.str "COMPLETED")) := by
  have hn : n ≤ 2 * t := by omega
  unfold pollForResult
  rw [show 2 * t + 1 = ((2 * t - n) + 1) + n from by omega,
    pollLoop_reach statusAt (t * 1000) n ((2 * t - n) + 1) 0
      (fun m hm => by simpa using hfirst m hm)
      (fun m hm => by
        have : m * 500 < n * 500 := by omega
        simpa using (by omega : (0 + m) * 500 < t * 1000)),
    show (0 : Nat) + n = n from by omega]
  exact pollLoop_completed statusAt (t * 1000) (2 * t - n) n hwin
    (by rw [hc]; rfl)

theorem pollForResult_failed (statusAt : Nat → StatusResp)
    (t n : Nat)
    (hfirst : ∀ m, m < n → isTerminalState (statusAt m).state = false)
    (hwin : n * 500 < t * 1000)
    (hf : (statusAt n).state = .str "FAILED") :
    pollForResult statusAt t =
      .resolved none (some (statusAt n).error) (some (.str "FAILED")) := by
  have hn : n ≤ 2 * t := by omega
  unfold pollForResult
  rw [show 2 * t + 1 = ((2 * t - n) + 1) + n from by omega,
    pollLoop_reach statusAt (t * 1000) n ((2 * t - n) + 1) 0
      (fun m hm => by simpa using hfirst m hm)
      (fun m hm => by
        have : m * 500 < n * 500 := by omega
        simpa using (by omega : (0 + m) * 500 < t * 1000)),
    show (0 : Nat) + n = n from by omega]
  exact pollLoop_failed statusAt (t * 1000) (2 * t - n) n hwin
    (by rw [hf]; rfl) (by rw [hf]; rfl)

theorem pollForResult_timeout (statusAt : Nat → StatusResp) (t : Nat)
    (hall : ∀ n, n * 500 < t * 1000 → isTerminalState (statusAt n).state = false) :
    pollForResult statusAt t = .timeoutThrown := by
  unfold pollForResult
  rw [show 2 * t + 1 = 1 + 2 * t from by omega,
    pollLoop_reach statusAt (t * 1000) (2 * t) 1 0
      (fun m hm => by
        have : m * 500 < t * 1000 := by omega
        simpa using hall m (by omega))
      (fun m hm => by simpa using (by omega : (0 + m) * 500 < t * 1000)),
    show (0 : Nat) + 2 * t = 2 * t from by omega]
  exact pollLoop_timeout statusAt (t * 1000) 0 (2 * t) (by omega)

end ClientGrpc

/-- C2: the gRPC client treats a FAILED_PRECONDITION response to awaitResult
as the recoverable still-running signal — it falls back to polling
get-workflow-status on a 500 ms cadence instead of surfacing an error
(any other gRPC error is surfaced); the poll returns the result with state
COMPLETED when the workflow completes, the error with state FAILED when it
fails, and the timeout error is thrown only when no terminal state was
observed within the caller-supplied timeoutSeconds window (default 60). -/
theorem C2_awaitResult_still_running :
    (∀ (statusAt : Nat → ClientGrpc.StatusResp) (t : Nat) (msg : String),
       ClientGrpc.awaitResult (.err ClientGrpc.FAILED_PRECONDITION msg) statusAt t =
         ClientGrpc.pollForResult statusAt t) ∧
    (∀ (statusAt : Nat → ClientGrpc.StatusResp) (t c : Nat) (msg : String),
       c ≠ ClientGrpc.FAILED_PRECONDITION →
       ClientGrpc.awaitResult (.err c msg) statusAt t = .rejected c msg) ∧
    (∀ (statusAt : Nat → ClientGrpc.StatusResp) (t n : Nat),
       (∀ m, m < n → ClientGrpc.isTerminalState (statusAt m).state = false) →
       n * 500 < t * 1000 →
       (statusAt n).state = .str "COMPLETED" →
       ClientGrpc.pollForResult statusAt t =
         .resolved (some (statusAt n).result) none (some (.str "COMPLETED"))) ∧
    (∀ (statusAt : Nat → ClientGrpc.StatusResp) (t n : Nat),
       (∀ m, m < n → ClientGrpc.isTerminalState (statusAt m).state = false) →
       n * 500 < t * 1000 →
       (statusAt n).state = .str "FAILED" →
       ClientGrpc.pollForResult statusAt t =
         .resolved none (some (statusAt n).error) (some (.str "FAILED"))) ∧
    (∀ (statusAt : Nat → ClientGrpc.StatusResp) (t : Nat),
       (∀ n, n * 500 < t * 1000 →
          ClientGrpc.isTerminalState (statusAt n).state = false) →
       ClientGrpc.pollForResult statusAt t = .timeoutThrown) ∧
    ClientGrpc.defaultTimeoutSeconds = 60 := by
  refine ⟨fun statusAt t msg => by simp [ClientGrpc.awaitResult],
    fun statusAt t c msg hc => by simp [ClientGrpc.awaitResult, hc],
    ClientGrpc.pollForResult_completed,
    ClientGrpc.pollForResult_failed,
    ClientGrpc.pollForResult_timeout,
    rfl⟩

/-- C2 witness: on a FAILED_PRECONDITION first response with a status trace
that completes at the third poll, awaitResult resolves with the result and
state COMPLETED within a 60-second budget. -/
theorem C2_awaitResult_still_running_witness :
    ClientGrpc.awaitResult (.err 9 "workflow still running")
        ClientGrpc.sampleStatusAt 60 =
      .resolved (some (.str "done")) none (some (.str "COMPLETED")) := by
  have h := C2_awaitResult_still_running
  rw [show (9 : Nat) = ClientGrpc.FAILED_PRECONDITION from rfl,
    h.1 ClientGrpc.sampleStatusAt 60 "workflow still running"]
  have h3 := h.2.2.1 ClientGrpc.sampleStatusAt 60 2
    (by decide) (by omega) rfl
  exact h3

/-- C3 counterexample: the claim says the monitor-channel event type ranges
over the full seven-member set; but `workflow:started` is in that set and no
event type declared by the dashboard wire type (`StepEventType`) carries it,
so the set is not fully ranged over. -/
theorem C3_counterexample :
    "workflow:started" ∈ Dashboard.specEventTypeNames ∧
    ∀ e : Dashboard.StepEventType, e.wireName ≠ "workflow:started" := by
  constructor
  · simp [Dashboard.specEventTypeNames]
  · intro e
    cases e <;> simp [Dashboard.StepEventType.wireName]

/-- C3 (amended): every monitor-channel event is an object with exactly the
snake_case fields event_type, workflow_id, workflow_type, timestamp and
payload, every event's event_type lies in the five-member set
{step:started, step:completed, step:failed, workflow:completed,
workflow:failed}, and each of those five names is attained. -/
theorem C3_event_shape :
    (∀ e : Dashboard.WorkflowEvent,
       e.toWire.map Prod.fst =
         ["event_type", "workflow_id", "workflow_type", "timestamp", "payload"]) ∧
    (∀ e : Dashboard.WorkflowEvent,
       e.event_type.wireName ∈ Dashboard.codeEventTypeNames) ∧
    (∀ n ∈ Dashboard.codeEventTypeNames,
       ∃ t : Dashboard.StepEventType, t.wireName = n) := by
  refine ⟨fun e => rfl, fun e => ?_, fun n hn => ?_⟩
  · cases e.event_type <;> simp [Dashboard.StepEventType.wireName,
      Dashboard.codeEventTypeNames]
  · fin_cases hn
    · exact ⟨.stepStarted, rfl⟩
    · exact ⟨.stepCompleted, rfl⟩
    · exact ⟨.stepFailed, rfl⟩
    · exact ⟨.workflowCompleted, rfl⟩
    · exact ⟨.workflowFailed, rfl⟩

/-- C3 witness: a concrete step:started event encodes to exactly the five
snake_case fields, and "workflow:completed" (a member of the five-name
set) is attained by an event type. -/
theorem C3_event_shape_witness :
    (({ event_type := .stepStarted, workflow_id := "w1",
        workflow_type := "greet", timestamp := 5,
        payload := .stepStarted "start" .null } :
        Dashboard.WorkflowEvent).toWire.map Prod.fst =
      ["event_type", "workflow_id", "workflow_type", "timestamp",
       "payload"]) ∧
    ∃ t : Dashboard.StepEventType, t.wireName = "workflow:completed" := by
  refine ⟨C3_event_shape.1 _, C3_event_shape.2.2 "workflow:completed" ?_⟩
  simp [Dashboard.codeEventTypeNames]

namespace Worker

theorem dispatchTrace_count (task : AetherTask) (name : String) (h : Handler) :
    completionCount task.taskId (dispatchTrace task name h) = 1 := by
  unfold dispatchTrace
  cases h task.input <;> simp [completionCount, isCompleteFor]

theorem handleTask_ack_once (steps : List (String × Handler))
    (task : AetherTask) :
    completionCount task.taskId (trpcNewHandleTask steps task) = 1 ∧
    completionCount task.taskId (trpcOldHandleTask steps task) = 1 ∧
    completionCount task.taskId (nestHandleTask steps task) = 1 := by
  refine ⟨?_, ?_, ?_⟩
  · unfold trpcNewHandleTask
    by_cases hfb : (task.stepName == "start" &&
        (alookup steps task.stepName).isNone && task.workflowType != "") = true
    · simp only [hfb, if_true]
      cases alookup steps task.workflowType with
      | none => simp [completionCount, isCompleteFor]
      | some h => exact dispatchTrace_count task task.workflowType h
    · simp only [Bool.not_eq_true] at hfb
      simp only [hfb, Bool.false_eq_true, if_false]
      cases alookup steps task.stepName with
      | none => simp [completionCount, isCompleteFor]
      | some h => exact dispatchTrace_count task task.stepName h
  · unfold trpcOldHandleTask
    cases alookup steps task.stepName with
    | none =>
        by_cases hs : (task.stepName == "start") = true <;>
          simp [hs, completionCount, isCompleteFor]
    | some h => exact dispatchTrace_count task task.stepName h
  · unfold nestHandleTask
    cases alookup steps task.stepName with
    | none =>
        by_cases hs : (task.stepName == "start") = true <;>
          simp [hs, completionCount, isCompleteFor]
    | some h => exact dispatchTrace_count task task.stepName h

end Worker

/-- C4: a task whose step-name has a registered handler is processed by both
the trpc worker (create-aether-trpc handleTask) and the NestJS worker
(AetherWorkerService.handleTask) as: report-step started, run the handler,
report-step completed with the output, then complete-step with the task-id
and the output; when the handler throws, report-step failed then
complete-step with the error message — and in either case the task is
acknowledged by exactly one completion referencing its task-id. -/
theorem C4_handled_task_protocol
    (steps : List (String × Worker.Handler)) (task : Worker.AetherTask)
    (h : Worker.Handler)
    (hfound : alookup steps task.stepName = some h) :
    (∀ r, h task.input = .ok r →
       Worker.trpcNewHandleTask steps task =
         [.reportStarted task.workflowId task.stepName task.input,
          .reportCompleted task.workflowId task.stepName r,
          .complete task.taskId r none] ∧
       Worker.nestHandleTask steps task =
         [.reportStarted task.workflowId task.stepName task.input,
          .reportCompleted task.workflowId task.stepName r,
          .complete task.taskId r none]) ∧
    (∀ e, h task.input = .error e →
       Worker.trpcNewHandleTask steps task =
         [.reportStarted task.workflowId task.stepName task.input,
          .reportFailed task.workflowId task.stepName e,
          .complete task.taskId (.obj []) (some e)] ∧
       Worker.nestHandleTask steps task =
         [.reportStarted task.workflowId task.stepName task.input,
          .reportFailed task.workflowId task.stepName e,
          .complete task.taskId (.obj []) (some e)]) ∧
    Worker.completionCount task.taskId (Worker.trpcNewHandleTask steps task) = 1 ∧
    Worker.completionCount task.taskId (Worker.nestHandleTask steps task) = 1 := by
  have hnew : Worker.trpcNewHandleTask steps task =
      Worker.dispatchTrace task task.stepName h := by
    unfold Worker.trpcNewHandleTask
    simp [hfound]
  have hnest : Worker.nestHandleTask steps task =
      Worker.dispatchTrace task task.stepName h := by
    unfold Worker.nestHandleTask
    simp [hfound]
  refine ⟨fun r hr => ?_, fun e he => ?_, ?_, ?_⟩
  · rw [hnew, hnest]
    unfold Worker.dispatchTrace
    rw [hr]
    exact ⟨rfl, rfl⟩
  · rw [hnew, hnest]
    unfold Worker.dispatchTrace
    rw [he]
    exact ⟨rfl, rfl⟩
  · exact (Worker.handleTask_ack_once steps task).1
  · exact (Worker.handleTask_ack_once steps task).2.2

/-- C4 witness: a concrete "greet" task with a registered handler is
dispatched with the started/completed reports and a single completion. -/
theorem C4_handled_task_protocol_witness :
    Worker.trpcNewHandleTask
        [("greet", fun _ => Except.ok (Value.str "hello"))]
        ⟨"t1", "w1", "greet-wf", "greet", Value.null⟩ =
      [.reportStarted "w1" "greet" Value.null,
       .reportCompleted "w1" "greet" (Value.str "hello"),
       .complete "t1" (Value.str "hello") none] := by
  exact ((C4_handled_task_protocol
    [("greet", fun _ => Except.ok (Value.str "hello"))]
    ⟨"t1", "w1", "greet-wf", "greet", Value.null⟩
    (fun _ => Except.ok (Value.str "hello")) rfl).1 (Value.str "hello") rfl).1

namespace Worker

theorem runBody_all_ok (wf : String) :
    ∀ steps : List (String × Except String Value),
      (∀ p ∈ steps, ∃ v, p.2 = Except.ok v) →
      runBody wf steps =
        ((steps.map fun p => (ctxStep wf p.1 p.2).1).flatten, Except.ok ())
  | [], _ => rfl
  | (name, fn) :: rest, hok => by
    obtain ⟨v, hv⟩ := hok (name, fn) (List.mem_cons_self _ _)
    simp only at hv
    have ih := runBody_all_ok wf rest
      (fun p hp => hok p (List.mem_cons_of_mem _ hp))
    simp [runBody, hv, ctxStep, ih]

theorem runBody_stops_at_failure (wf : String) :
    ∀ (pre : List (String × Except String Value)) (name e : String)
      (post : List (String × Except String Value)),
      (∀ p ∈ pre, ∃ v, p.2 = Except.ok v) →
      runBody wf (pre ++ (name, Except.error e) :: post) =
        ((pre.map fun p => (ctxStep wf p.1 p.2).1).flatten ++
           [.reportStarted wf name (.obj []), .reportFailed wf name e],
         Except.error e)
  | [], name, e, post, _ => by simp [runBody, ctxStep]
  | (n, fn) :: rest, name, e, post, hok => by
    obtain ⟨v, hv⟩ := hok (n, fn) (List.mem_cons_self _ _)
    simp only at hv
    have ih := runBody_stops_at_failure wf rest name e post
      (fun p hp => hok p (List.mem_cons_of_mem _ hp))
    simp [runBody, hv, ctxStep, ih]

end Worker

/-- C5: ctx.step reports started before the user function's outcome is
reported, reports completed with the step's return value on success and
failed with the error on a throw (the error propagating); a body running a
declared list of steps therefore reports them in order, and after the
first failing step no later step runs or is reported. -/
theorem C5_ctx_step_reporting :
    (∀ wf name v, Worker.ctxStep wf name (Except.ok v) =
       ([.reportStarted wf name (.obj []), .reportCompleted wf name v],
        Except.ok v)) ∧
    (∀ wf name e, Worker.ctxStep wf name (Except.error e) =
       ([.reportStarted wf name (.obj []), .reportFailed wf name e],
        Except.error e)) ∧
    (∀ wf (steps : List (String × Except String Value)),
       (∀ p ∈ steps, ∃ v, p.2 = Except.ok v) →
       Worker.runBody wf steps =
         ((steps.map fun p => (Worker.ctxStep wf p.1 p.2).1).flatten,
          Except.ok ())) ∧
    (∀ wf (pre : List (String × Except String Value)) (name e : String)
       (post : List (String × Except String Value)),
       (∀ p ∈ pre, ∃ v, p.2 = Except.ok v) →
       Worker.runBody wf (pre ++ (name, Except.error e) :: post) =
         ((pre.map fun p => (Worker.ctxStep wf p.1 p.2).1).flatten ++
            [.reportStarted wf name (.obj []), .reportFailed wf name e],
          Except.error e)) :=
  ⟨fun _ _ _ => rfl, fun _ _ _ => rfl,
   Worker.runBody_all_ok, Worker.runBody_stops_at_failure⟩

/-- C5 witness: the three-step slow-process body with a failure at the
second step reports step-1 started/completed and step-2 started/failed,
propagates the error and never reports step-3. -/
theorem C5_ctx_step_reporting_witness :
    Worker.runBody "w1"
        [("step-1-init", Except.ok (Value.str "ok1")),
         ("step-2-process", Except.error "boom"),
         ("step-3-finalize", Except.ok (Value.str "ok3"))] =
      ([.reportStarted "w1" "step-1-init" (.obj []),
        .reportCompleted "w1" "step-1-init" (Value.str "ok1"),
        .reportStarted "w1" "step-2-process" (.obj []),
        .reportFailed "w1" "step-2-process" "boom"],
       Except.error "boom") := by
  have h := C5_ctx_step_reporting.2.2.2 "w1"
    [("step-1-init", Except.ok (Value.str "ok1"))]
    "step-2-process" "boom"
    [("step-3-finalize", Except.ok (Value.str "ok3"))]
    (by intro p hp; simp at hp; exact ⟨Value.str "ok1", by simp [hp]⟩)
  simpa [Worker.ctxStep] using h

/-- C10: a task whose step-name has no registered handler is still
acknowledged by exactly one completion: the first-generation trpc worker
and the NestJS worker complete a "start" task successfully with
`{started: true}` and complete any other unmatched task with a
"No handler for step" error; the newer trpc worker dispatches a "start"
task to the handler registered under the task's workflow-type when one
exists and otherwise completes the task with a "No handler" error — and
every path emits exactly one completion referencing the task-id. -/
theorem C10_unmatched_task_ack
    (steps : List (String × Worker.Handler)) (task : Worker.AetherTask)
    (hmiss : alookup steps task.stepName = none) :
    (task.stepName = "start" →
       Worker.trpcOldHandleTask steps task =
         [.complete task.taskId (.obj [("started", .bool true)]) none] ∧
       Worker.nestHandleTask steps task =
         [.complete task.taskId (.obj [("started", .bool true)]) none]) ∧
    (task.stepName ≠ "start" →
       Worker.trpcOldHandleTask steps task =
         [.complete task.taskId (.obj [])
            (some ("No handler for step: " ++ task.stepName))] ∧
       Worker.nestHandleTask steps task =
         [.complete task.taskId (.obj [])
            (some ("No handler for step: " ++ task.stepName))]) ∧
    (∀ h, task.stepName = "start" → task.workflowType ≠ "" →
       alookup steps task.workflowType = some h →
       Worker.trpcNewHandleTask steps task =
         Worker.dispatchTrace task task.workflowType h) ∧
    (task.stepName = "start" → task.workflowType ≠ "" →
       alookup steps task.workflowType = none →
       Worker.trpcNewHandleTask steps task =
         [.complete task.taskId (.obj [])
            (some ("No handler: " ++ task.workflowType))]) ∧
    (task.stepName = "start" → task.workflowType = "" →
       Worker.trpcNewHandleTask steps task =
         [.complete task.taskId (.obj []) (some "No handler: start")]) ∧
    (task.stepName ≠ "start" →
       Worker.trpcNewHandleTask steps task =
         [.complete task.taskId (.obj [])
            (some ("No handler: " ++ task.stepName))]) ∧
    (Worker.completionCount task.taskId (Worker.trpcNewHandleTask steps task) = 1 ∧
     Worker.completionCount task.taskId (Worker.trpcOldHandleTask steps task) = 1 ∧
     Worker.completionCount task.taskId (Worker.nestHandleTask steps task) = 1) := by
  refine ⟨fun hs => ?_, fun hns => ?_, fun h hs hw hfb => ?_,
    fun hs hw hnone => ?_, fun hs hw => ?_, fun hns => ?_,
    Worker.handleTask_ack_once steps task⟩
  · unfold Worker.trpcOldHandleTask Worker.nestHandleTask
    rw [hs] at hmiss
    simp [hmiss, hs]
  · unfold Worker.trpcOldHandleTask Worker.nestHandleTask
    simp [hmiss, hns]
  · unfold Worker.trpcNewHandleTask
    rw [hs] at hmiss
    simp [hmiss, hs, hw, hfb]
  · unfold Worker.trpcNewHandleTask
    rw [hs] at hmiss
    simp [hmiss, hs, hw, hnone]
  · unfold Worker.trpcNewHandleTask
    rw [hs] at hmiss
    simp [hmiss, hs, hw]
  · unfold Worker.trpcNewHandleTask
    simp [hmiss, hns]

/-- C10 witness: an unmatched "start" task is completed with
`{started: true}` by the NestJS worker, while the newer trpc worker routes
it to the workflow-type handler. -/
theorem C10_unmatched_task_ack_witness :
    Worker.nestHandleTask [] ⟨"t2", "w2", "order-flow", "start", Value.null⟩ =
      [.complete "t2" (.obj [("started", .bool true)]) none] ∧
    Worker.trpcNewHandleTask
        [("order-flow", fun _ => Except.ok (Value.str "ran"))]
        ⟨"t3", "w3", "order-flow", "start", Value.null⟩ =
      [.reportStarted "w3" "order-flow" Value.null,
       .reportCompleted "w3" "order-flow" (Value.str "ran"),
       .complete "t3" (Value.str "ran") none] := by
  constructor
  · exact ((C10_unmatched_task_ack []
      ⟨"t2", "w2", "order-flow", "start", Value.null⟩ rfl).1 rfl).2
  · have h := (C10_unmatched_task_ack
      [("order-flow", fun _ => Except.ok (Value.str "ran"))]
      ⟨"t3", "w3", "order-flow", "start", Value.null⟩
      (by simp [alookup])).2.2.1
      (fun _ => Except.ok (Value.str "ran")) rfl (by simp) rfl
    rw [h]
    rfl

theorem alookup_append_of_found {α : Type} (k : String) (v : α) :
    ∀ (l l' : List (String × α)), alookup l k = some v →
      alookup (l ++ l') k = some v
  | [], _, h => by simp [alookup] at h
  | (k', v') :: rest, l', h => by
    by_cases hk : k' = k
    · simp [alookup, hk] at h ⊢
      exact h
    · simp [alookup, hk] at h ⊢
      exact alookup_append_of_found k v rest l' h

theorem alookup_append_new {α : Type} (k : String) (v : α) :
    ∀ l : List (String × α), alookup l k = none →
      alookup (l ++ [(k, v)]) k = some v
  | [], _ => by simp [alookup]
  | (k', v') :: rest, h => by
    by_cases hk : k' = k
    · simp [alookup, hk] at h
    · simp [alookup, hk] at h ⊢
      exact alookup_append_new k v rest h

namespace Trpc

theorem bindRouter_preserves {H : Type} (n : String)
    (r : RegisteredStepWithPath H) :
    ∀ (tree : RouterRec H) (steps steps' : Registry H) (pre : String),
      bindRouter steps pre tree = .ok steps' →
      alookup steps n = some r → alookup steps' n = some r
  | .nil, steps, steps', pre, hok, hl => by
    simp only [bindRouter] at hok
    cases hok
    exact hl
  | .routerEntry key child rest, steps, steps', pre, hok, hl => by
    simp only [bindRouter] at hok
    cases hc : bindRouter steps (joinPath pre key) child with
    | error e => simp only [hc] at hok; exact absurd hok (by simp)
    | ok s1 =>
      simp only [hc] at hok
      exact bindRouter_preserves n r rest s1 steps' pre hok
        (bindRouter_preserves n r child steps s1 (joinPath pre key) hc hl)
  | .procEntry key p rest, steps, steps', pre, hok, hl => by
    simp only [bindRouter] at hok
    cases hm : p.aetherStepMeta with
    | none =>
      simp only [hm] at hok
      exact bindRouter_preserves n r rest steps steps' pre hok hl
    | some meta =>
      simp only [hm] at hok
      cases hlk : alookup steps (meta.explicitName.getD (joinPath pre key)) with
      | some ex => simp only [hlk] at hok; exact absurd hok (by simp)
      | none =>
        simp only [hlk] at hok
        exact bindRouter_preserves n r rest _ steps' pre hok
          (alookup_append_of_found n r steps _ hl)

theorem bindRouter_error_shape {H : Type} :
    ∀ (tree : RouterRec H) (steps : Registry H) (pre msg : String)
      (reg : Registry H),
      bindRouter steps pre tree = .error (msg, reg) →
      ∃ (n newPath : String) (existing : RegisteredStepWithPath H),
        msg = dupMsg n existing.path newPath ∧ alookup reg n = some existing
  | .nil, steps, pre, msg, reg, herr => by
    simp [bindRouter] at herr
  | .routerEntry key child rest, steps, pre, msg, reg, herr => by
    simp only [bindRouter] at herr
    cases hc : bindRouter steps (joinPath pre key) child with
    | error e =>
      simp only [hc] at herr
      cases herr
      exact bindRouter_error_shape child steps (joinPath pre key) msg reg hc
    | ok s1 =>
      simp only [hc] at herr
      exact bindRouter_error_shape rest s1 pre msg reg herr
  | .procEntry key p rest, steps, pre, msg, reg, herr => by
    simp only [bindRouter] at herr
    cases hm : p.aetherStepMeta with
    | none =>
      simp only [hm] at herr
      exact bindRouter_error_shape rest steps pre msg reg herr
    | some meta =>
      simp only [hm] at herr
      cases hlk : alookup steps (meta.explicitName.getD (joinPath pre key)) with
      | some ex =>
        simp only [hlk] at herr
        cases herr
        exact ⟨meta.explicitName.getD (joinPath pre key), joinPath pre key,
          ex, rfl, hlk⟩
      | none =>
        simp only [hlk] at herr
        exact bindRouter_error_shape rest _ pre msg reg herr

end Trpc

/-- C6: a procedure declared through mutationStep/queryStep carries both the
transport handler and, under the AETHER_STEP_META symbol, a StepMeta record
holding the same handler; and when bindRouter succeeds on a router entry
carrying such metadata, the handler is registered as a step under the
derived name — the explicit name when one was given, otherwise the
dot-joined router path. -/
theorem C6_step_declaration_registers :
    (∀ (H : Type) (ty : Trpc.ProcType) (en : Option String) (h : H),
       (Trpc.createStepMethod ty en h).handler = h ∧
       (Trpc.createStepMethod ty en h).procType = ty ∧
       (Trpc.createStepMethod ty en h).aetherStepMeta =
         some { handler := h, type := ty, explicitName := en }) ∧
    (∀ (H : Type) (steps : Trpc.Registry H) (pre key : String)
       (p : Trpc.Procedure H) (rest : Trpc.RouterRec H) (m : Trpc.StepMeta H)
       (steps' : Trpc.Registry H),
       p.aetherStepMeta = some m →
       Trpc.bindRouter steps pre (.procEntry key p rest) = .ok steps' →
       alookup steps' (m.explicitName.getD (Trpc.joinPath pre key)) =
         some { name := m.explicitName.getD (Trpc.joinPath pre key),
                handler := m.handler,
                path := Trpc.joinPath pre key }) := by
  refine ⟨fun H ty en h => ⟨rfl, rfl, rfl⟩,
    fun H steps pre key p rest m steps' hm hok => ?_⟩
  simp only [Trpc.bindRouter, hm] at hok
  cases hlk : alookup steps (m.explicitName.getD (Trpc.joinPath pre key)) with
  | some ex => simp only [hlk] at hok; exact absurd hok (by simp)
  | none =>
    simp only [hlk] at hok
    exact Trpc.bindRouter_preserves _ _ rest _ steps' pre hok
      (alookup_append_new _ _ steps hlk)

/-- C6 witness: binding a router holding one anonymous mutationStep under
the "orders" prefix registers its handler under the dot-joined path
"orders.createOrder". -/
theorem C6_step_declaration_registers_witness :
    alookup
        [("orders.createOrder",
          ({ name := "orders.createOrder", handler := 7,
             path := "orders.createOrder" } : Trpc.RegisteredStepWithPath Nat))]
        "orders.createOrder" =
      some { name := "orders.createOrder", handler := 7,
             path := "orders.createOrder" } := by
  have h := C6_step_declaration_registers.2 Nat [] "orders" "createOrder"
    (Trpc.createStepMethod .mutation none 7) .nil
    { handler := 7, type := .mutation, explicitName := none }
    [("orders.createOrder",
      { name := "orders.createOrder", handler := 7,
        path := "orders.createOrder" })]
    rfl rfl
  simpa [Trpc.joinPath] using h

/-- C9: when a procedure's derived step name is already present in the step
registry, bindRouter throws the duplicate error whose message names both
conflicting paths, and the registry carried at the throw is exactly the one
from before the colliding entry — the earlier registration is kept and
nothing is overwritten; moreover every error bindRouter ever returns has
this shape, with the conflicting name still resolving to its earlier
entry. -/
theorem C9_bindRouter_duplicate
    {H : Type} (steps : Trpc.Registry H) (pre key : String)
    (p : Trpc.Procedure H) (rest : Trpc.RouterRec H) (m : Trpc.StepMeta H)
    (existing : Trpc.RegisteredStepWithPath H)
    (hm : p.aetherStepMeta = some m)
    (hdup : alookup steps (m.explicitName.getD (Trpc.joinPath pre key)) =
      some existing) :
    Trpc.bindRouter steps pre (.procEntry key p rest) =
      .error (Trpc.dupMsg (m.explicitName.getD (Trpc.joinPath pre key))
        existing.path (Trpc.joinPath pre key), steps) ∧
    (∀ (tree : Trpc.RouterRec H) (steps0 reg : Trpc.Registry H)
       (pre0 msg : String),
       Trpc.bindRouter steps0 pre0 tree = .error (msg, reg) →
       ∃ (n newPath : String) (ex : Trpc.RegisteredStepWithPath H),
         msg = Trpc.dupMsg n ex.path newPath ∧ alookup reg n = some ex) := by
  constructor
  · simp only [Trpc.bindRouter, hm, hdup]
  · intro tree steps0 reg pre0 msg herr
    exact Trpc.bindRouter_error_shape tree steps0 pre0 msg reg herr

/-- C9 witness: a second procedure whose explicit name "dup" is already
registered makes bindRouter throw the duplicate message naming the earlier
path "a" and the new path "b", with the registry still mapping "dup" to the
earlier entry. -/
theorem C9_bindRouter_duplicate_witness :
    Trpc.bindRouter
        [("dup", ({ name := "dup", handler := 1, path := "a" } :
          Trpc.RegisteredStepWithPath Nat))] ""
        (.procEntry "b" (Trpc.createStepMethod .mutation (some "dup") 2) .nil) =
      .error (Trpc.dupMsg "dup" "a" "b",
        [("dup", { name := "dup", handler := 1, path := "a" })]) := by
  have h := (C9_bindRouter_duplicate
    [("dup", ({ name := "dup", handler := 1, path := "a" } :
      Trpc.RegisteredStepWithPath Nat))] "" "b"
    (Trpc.createStepMethod .mutation (some "dup") 2) .nil
    { handler := 2, type := .mutation, explicitName := some "dup" }
    { name := "dup", handler := 1, path := "a" }
    rfl rfl).1
  simpa using h

namespace Poll

theorem pollStream_data {α β : Type} (decode : α → β) :
    ∀ (ts : List α) (rest : List (StreamEvent α)) (acc : List β),
      pollStream decode (ts.map .taskData ++ rest) acc =
        pollStream decode rest (acc ++ ts.map decode)
  | [], rest, acc => by simp
  | t :: ts, rest, acc => by
    simp only [List.map_cons, List.cons_append, pollStream, List.append_eq]
    rw [pollStream_data decode ts rest (acc ++ [decode t])]
    simp

end Poll

/-- C7 counterexample: the claim extends the batch-return behavior to the
legacy HTTP pollTasksOnce, but that client returns the empty array even
when a task is available, so it does not return the available tasks. -/
theorem C7_counterexample :
    Poll.httpPollTasksOnce "worker-1" 10 [(42 : Nat)] = [] ∧
    ([] : List Nat) ≠ [42] := ⟨rfl, by decide⟩

/-- C7 (amended): the gRPC pollTasksOnce issues a claim request carrying
the worker-id and the maximum batch size, accumulates the streamed tasks
and resolves the batch on stream end or on a CANCELLED (code 1) error,
rejecting on any other error; the legacy HTTP pollTasksOnce always returns
an empty batch. -/
theorem C7_pollTasksOnce :
    (∀ (α β : Type) (decode : α → β) (w : String) (n : Nat) (ts : List α),
       Poll.grpcPollTasksOnce decode w n
           (ts.map .taskData ++ [.endEvent]) =
         ({ workerId := w, maxTasks := n },
          .resolvedTasks (ts.map decode))) ∧
    (∀ (α β : Type) (decode : α → β) (w : String) (n : Nat) (ts : List α)
       (c : Nat) (m : String),
       Poll.grpcPollTasksOnce decode w n
           (ts.map .taskData ++ [.errEvent c m]) =
         ({ workerId := w, maxTasks := n },
          if c = 1 then .resolvedTasks (ts.map decode)
          else .rejectedCall c m)) ∧
    (∀ (α : Type) (w : String) (n : Nat) (avail : List α),
       Poll.httpPollTasksOnce w n avail = []) := by
  refine ⟨fun α β decode w n ts => ?_, fun α β decode w n ts c m => ?_,
    fun α w n avail => rfl⟩
  · unfold Poll.grpcPollTasksOnce
    rw [Poll.pollStream_data decode ts [.endEvent] []]
    simp [Poll.pollStream]
  · unfold Poll.grpcPollTasksOnce
    rw [Poll.pollStream_data decode ts [.errEvent c m] []]
    simp [Poll.pollStream]

/-- C8: the session material obtained at registration is required for the
subsequent worker operations: connect before a successful register throws
(both in the TypeScript AetherWorker and in the NestJS AetherHttpClient),
heartbeat before registration returns false without issuing any request,
and after a successful register the task stream is opened exactly at the
URL carrying the registered worker-id and session-token. -/
theorem C8_session_required :
    (∀ (wsBase : String) (st : Session.WorkerState),
       st.workerId = none ∨ st.sessionToken = none →
       Session.connectWorker wsBase st =
         .error "Must register before connecting" ∧
       Session.nestConnect wsBase st =
         .error "Must register before connecting") ∧
    (∀ (st : Session.WorkerState) (serverOk : Bool), st.workerId = none →
       Session.heartbeat st serverOk = (false, [])) ∧
    (∀ (wsBase : String) (st : Session.WorkerState)
       (resp : Session.RegisterResponse),
       Session.connectWorker wsBase (Session.applyRegister st resp) =
         .ok (Session.taskStreamUrl wsBase resp.workerId resp.sessionToken) ∧
       Session.nestConnect wsBase (Session.applyRegister st resp) =
         .ok (Session.taskStreamUrl wsBase resp.workerId resp.sessionToken)) := by
  refine ⟨fun wsBase st hdisj => ?_, fun st serverOk h => ?_,
    fun wsBase st resp => ⟨rfl, rfl⟩⟩
  · obtain ⟨wid, tok⟩ := st
    rcases hdisj with h | h
    · simp only at h
      subst h
      exact ⟨by cases tok <;> rfl, by cases tok <;> rfl⟩
    · simp only at h
      subst h
      exact ⟨by cases wid <;> rfl, by cases wid <;> rfl⟩
  · obtain ⟨wid, tok⟩ := st
    simp only at h
    subst h
    rfl

/-- C8 witness: an unregistered worker state makes connect throw and
heartbeat return false with no request; after registering with worker-id
"w-1" and token "tok-1" the stream URL carries both. -/
theorem C8_session_required_witness :
    Session.connectWorker "ws://host" ⟨none, none⟩ =
      .error "Must register before connecting" ∧
    Session.heartbeat ⟨none, none⟩ true = (false, []) ∧
    Session.connectWorker "ws://host"
        (Session.applyRegister ⟨none, none⟩ ⟨"w-1", "tok-1"⟩) =
      .ok "ws://host/workers/w-1/tasks?token=tok-1" := by
  refine ⟨(C8_session_required.1 "ws://host" ⟨none, none⟩ (Or.inl rfl)).1,
    C8_session_required.2.1 ⟨none, none⟩ true rfl, ?_⟩
  have h := (C8_session_required.2.2 "ws://host" ⟨none, none⟩
    ⟨"w-1", "tok-1"⟩).1
  simpa [Session.taskStreamUrl] using h

namespace Core

theorem findTask_mark (taskId : String) :
    ∀ tasks : List CoreTask,
      findTask (markTaskCompleted tasks taskId) taskId =
        (findTask tasks taskId).map fun t => { t with completed := true }
  | [] => rfl
  | t :: rest => by
    by_cases ht : (t.taskId == taskId) = true
    · simp [findTask, markTaskCompleted, ht]
    · simp only [Bool.not_eq_true] at ht
      simp [findTask, markTaskCompleted, ht, findTask_mark taskId rest]

theorem findTask_append_of_found (taskId : String) (v : CoreTask) :
    ∀ (tasks more : List CoreTask), findTask tasks taskId = some v →
      findTask (tasks ++ more) taskId = some v
  | [], _, h => by simp [findTask] at h
  | t :: rest, more, h => by
    by_cases ht : (t.taskId == taskId) = true
    · simp [findTask, ht] at h ⊢
      exact h
    · simp only [Bool.not_eq_true] at ht
      simp only [findTask, ht, Bool.false_eq_true, if_false,
        List.cons_append] at h ⊢
      exact findTask_append_of_found taskId v rest more h

theorem completeStep_duplicate (s : CoreState) (taskId : String)
    (result : Value) (error : Option String) (t : CoreTask)
    (hfind : findTask s.tasks taskId = some t)
    (hc : t.completed = true) :
    completeStep s taskId result error = (s, .ok) := by
  unfold completeStep
  rw [hfind]
  simp [hc]

theorem completeStep_first_run (s : CoreState) (taskId : String)
    (result : Value) (error : Option String) (t : CoreTask)
    (hfind : findTask s.tasks taskId = some t)
    (hnc : t.completed = false) :
    ∃ more : List CoreTask,
      (completeStep s taskId result error).1.tasks =
        markTaskCompleted s.tasks taskId ++ more ∧
      (completeStep s taskId result error).2 = .ok := by
  unfold completeStep
  rw [hfind]
  simp only [hnc, Bool.false_eq_true, if_false]
  cases error with
  | some e =>
    refine ⟨[], ?_, ?_⟩
    · simp
    · rfl
  | none =>
    cases hw : s.workflows.find? (fun w => w.workflowId == t.workflowId) with
    | none =>
      refine ⟨[], ?_, ?_⟩
      · simp [hw]
      · simp [hw]
    | some w =>
      cases hsteps : w.stepsRemaining with
      | nil =>
        refine ⟨[], ?_, ?_⟩
        · simp [hw, hsteps]
        · simp [hw, hsteps]
      | cons next restSteps =>
        refine ⟨[{ taskId := "task-" ++ toString s.nextTaskSeq,
                   workflowId := t.workflowId, stepName := next,
                   completed := false }], ?_, ?_⟩
        · simp [hw, hsteps]
        · simp [hw, hsteps]

end Core

/-- C1: complete-step is idempotent by task-id — invoking it a second time
with the same task-id leaves the coordinator state (workflows, tasks and
the emitted event log) exactly as after the first invocation, and the
duplicate completion returns ok whenever the first one did. -/
theorem C1_completeStep_idempotent (s : Core.CoreState) (taskId : String)
    (result : Value) (error : Option String) :
    (Core.completeStep (Core.completeStep s taskId result error).1
        taskId result error).1 =
      (Core.completeStep s taskId result error).1 ∧
    (Core.completeStep (Core.completeStep s taskId result error).1
        taskId result error).1.events =
      (Core.completeStep s taskId result error).1.events ∧
    ((Core.completeStep s taskId result error).2 = .ok →
      (Core.completeStep (Core.completeStep s taskId result error).1
          taskId result error).2 = .ok) := by
  cases hfind : Core.findTask s.tasks taskId with
  | none =>
    have h1 : Core.completeStep s taskId result error = (s, .notFound) := by
      unfold Core.completeStep
      rw [hfind]
    have hstate : (Core.completeStep s taskId result error).1 = s := by
      rw [h1]
    have hout : (Core.completeStep s taskId result error).2 = .notFound := by
      rw [h1]
    refine ⟨?_, ?_, ?_⟩
    · rw [hstate, h1]
    · rw [hstate, h1]
    · intro hh
      rw [hout] at hh
      cases hh
  | some t =>
    by_cases htc : t.completed = true
    · have h1 := Core.completeStep_duplicate s taskId result error t hfind htc
      have hstate : (Core.completeStep s taskId result error).1 = s := by
        rw [h1]
      refine ⟨?_, ?_, fun _ => ?_⟩ <;> rw [hstate, h1]
    · simp only [Bool.not_eq_true] at htc
      obtain ⟨more, htasks, hok⟩ :=
        Core.completeStep_first_run s taskId result error t hfind htc
      have hfind2 : Core.findTask
          (Core.completeStep s taskId result error).1.tasks taskId =
          some { t with completed := true } := by
        rw [htasks]
        apply Core.findTask_append_of_found
        rw [Core.findTask_mark, hfind]
        rfl
      have h2 := Core.completeStep_duplicate
        (Core.completeStep s taskId result error).1 taskId result error
        { t with completed := true } hfind2 rfl
      exact ⟨by rw [h2], by rw [h2], fun _ => by rw [h2]⟩

/-- C1 witness: completing the single claimed task of a concrete one-step
workflow twice leaves the state of the first completion unchanged, and the
duplicate returns ok. -/
theorem C1_completeStep_idempotent_witness :
    (Core.completeStep
        (Core.completeStep Core.sampleCore "t-1" (.str "res") none).1
        "t-1" (.str "res") none).1 =
      (Core.completeStep Core.sampleCore "t-1" (.str "res") none).1 ∧
    (Core.completeStep
        (Core.completeStep Core.sampleCore "t-1" (.str "res") none).1
        "t-1" (.str "res") none).2 = .ok := by
  have h := C1_completeStep_idempotent Core.sampleCore "t-1" (.str "res") none
  exact ⟨h.1, h.2.2 rfl⟩

end Aether
